import Mathlib

/-!
Shallow embedding of the bootstrap job-queue persistent state
(`queue/state.go` of the repository): the job store with its content
cache, the runnable queue, the dependency graph with its bucket-handle
cache, the missing-id set, and the checkpointed pending-job counter.

Modelling conventions:
* Job identifiers (32-byte `ids.ID` values) are represented by `Nat`;
  the conversion `ids.ToID` applied to a key that was itself written
  from an id always succeeds, so it is modelled as the identity.
* Each prefixed namespace of the underlying ordered key-value store is
  a pure association list.  Write operations (`Put`, `Delete`) of the
  external store may fail; a `Faults` oracle decides, per operation and
  key, whether the store reports an I/O error.  Reads of the pure map
  are total; a missing key is `database.ErrNotFound`.
* `linkeddb.LinkedDB` (repository code not included in the sampled
  sources) is modelled from the spec: an insertion-ordered set of keys,
  `Put` of a present key is a no-op, `HeadKey` is the first entry, and
  the iterator walks the entries in order even while they are being
  deleted (snapshot of the order at iteration start).
* `cache.LRU` (repository code not included in the sampled sources) is
  modelled from the spec as a bounded cache: `Put` moves the entry to
  the front and truncates to the capacity; `Get` is a pure lookup.
-/

namespace BootstrapQueue

/-- Errors surfaced by the queue layer: `notFound` is `database.ErrNotFound`,
`ioError` is a storage write failure injected by the fault oracle, and
`parseError` is a failure of the external Parser collaborator. -/
inductive Err where
  | notFound
  | ioError
  | parseError
deriving DecidableEq, Repr

/-- A job as the queue sees it: an identifier (`ID()`) and its serialized
byte representation (`Bytes()`). -/
structure Job where
  jid : Nat
  bytes : List Nat
deriving DecidableEq, Repr

/-- Lookup in an association-list key-value namespace. -/
def kvGet {α : Type} (m : List (Nat × α)) (k : Nat) : Option α :=
  (m.find? (fun p => p.1 == k)).map Prod.snd

/-- Overwriting insert into a key-value namespace. -/
def kvPut {α : Type} (m : List (Nat × α)) (k : Nat) (v : α) : List (Nat × α) :=
  (k, v) :: m.filter (fun p => p.1 != k)

/-- Delete a key from a key-value namespace (deleting an absent key is a
no-op, as in the underlying store). -/
def kvDelete {α : Type} (m : List (Nat × α)) (k : Nat) : List (Nat × α) :=
  m.filter (fun p => p.1 != k)

/-- Modelled from the spec: `linkeddb` insertion-ordered set `Put`.
Re-adding a present key is a no-op; a new key is appended. -/
def bucketPut (b : List Nat) (k : Nat) : List Nat :=
  if k ∈ b then b else b ++ [k]

/-- Modelled from the spec: `linkeddb` `Delete`; deleting an absent key is
a no-op. -/
def bucketDelete (b : List Nat) (k : Nat) : List Nat :=
  b.filter (fun x => x != k)

/-- Modelled from the spec: bounded LRU cache insert — the entry moves to
the front and the cache is truncated to its capacity. -/
def cachePut {α : Type} (c : List (Nat × α)) (cap : Nat) (k : Nat) (v : α) :
    List (Nat × α) :=
  ((k, v) :: c.filter (fun p => p.1 != k)).take cap

/-- Modelled from the spec: cache lookup. -/
def cacheGet {α : Type} (c : List (Nat × α)) (k : Nat) : Option α :=
  kvGet c k

/-- `dependentsCacheSize = 1024`. -/
def dependentsCacheSize : Nat := 1024

/-- `jobsCacheSize = 2048`. -/
def jobsCacheSize : Nat := 2048

/-- The single key (`pendingJobsKey`) used inside the pendingJobs
namespace for the checkpointed counter. -/
def pendingJobsKeyN : Nat := 0

/-- A write operation of the backing store, used by the fault oracle to
decide which writes fail. -/
inductive StoreOp where
  | jobsPut (id : Nat)
  | jobsDelete (id : Nat)
  | runnablePut (id : Nat)
  | runnableDelete (id : Nat)
  | depPut (dep k : Nat)
  | depDelete (dep k : Nat)
  | missingPut (id : Nat)
  | missingDelete (id : Nat)
  | ckptPut
deriving DecidableEq, Repr

/-- Fault oracle for the external durable store: `fails op = true` means
the corresponding write returns an I/O error. -/
structure Faults where
  fails : StoreOp → Bool

/-- The fault-free store. -/
def noFaults : Faults := ⟨fun _ => false⟩

/-- The `state` struct of `queue/state.go`: the parser collaborator, the
runnable-id linked list, the caching flag, the content cache, the jobs
namespace, the dependencies namespace (dependency id ↦ ordered bucket of
dependent ids), the bucket-handle cache (modelled as the list of
dependency ids whose handle is cached), the missing-id linked list, the
pendingJobs checkpoint namespace, and the in-memory pending counter. -/
structure State where
  parser : List Nat → Except Err Job
  runnableJobIDs : List Nat
  cachingEnabled : Bool
  jobsCache : List (Nat × Job)
  jobs : List (Nat × List Nat)
  dependencies : List (Nat × List Nat)
  dependentsCache : List Nat
  missingJobIDs : List Nat
  pendingJobs : List (Nat × Nat)
  numPendingJobs : Nat

/-- The store-and-decode path of `GetJob`: read the bytes from the jobs
namespace (`ErrNotFound` when absent), decode with the parser, and only
on a successful decode insert into the content cache (when enabled). -/
def getJobFromStore (s : State) (id : Nat) : Except Err Job × State :=
  match kvGet s.jobs id with
  | none => (.error .notFound, s)
  | some bs =>
    match s.parser bs with
    | .error e => (.error e, s)
    | .ok job =>
      if s.cachingEnabled then
        (.ok job, { s with jobsCache := cachePut s.jobsCache jobsCacheSize id job })
      else
        (.ok job, s)

/-- `state.GetJob`: cache-first when caching is enabled, otherwise the
store-and-decode path. -/
def getJob (s : State) (id : Nat) : Except Err Job × State :=
  if s.cachingEnabled then
    match cacheGet s.jobsCache id with
    | some job => (.ok job, s)
    | none => getJobFromStore s id
  else
    getJobFromStore s id

/-- `state.HasJob`: true on a content-cache hit (when caching is enabled),
otherwise presence in the jobs namespace. -/
def hasJob (s : State) (id : Nat) : Bool :=
  if s.cachingEnabled && (cacheGet s.jobsCache id).isSome then
    true
  else
    (kvGet s.jobs id).isSome

/-- `state.PutJob`: insert into the content cache (when enabled), write the
serialized job to the jobs namespace, increment the pending counter, and
checkpoint the counter.  The returned state reflects every mutation
performed before a failing write. -/
def putJob (f : Faults) (s : State) (job : Job) : Option Err × State :=
  let id := job.jid
  let s1 := if s.cachingEnabled then
      { s with jobsCache := cachePut s.jobsCache jobsCacheSize id job }
    else s
  if f.fails (.jobsPut id) then
    (some .ioError, s1)
  else
    let s2 := { s1 with jobs := kvPut s1.jobs id job.bytes }
    let s3 := { s2 with numPendingJobs := s2.numPendingJobs + 1 }
    if f.fails .ckptPut then
      (some .ioError, s3)
    else
      (none, { s3 with pendingJobs := kvPut s3.pendingJobs pendingJobsKeyN s3.numPendingJobs })

/-- `state.AddRunnableJob`: put the id into the runnable linked list. -/
def addRunnableJob (f : Faults) (s : State) (id : Nat) : Option Err × State :=
  if f.fails (.runnablePut id) then
    (some .ioError, s)
  else
    (none, { s with runnableJobIDs := bucketPut s.runnableJobIDs id })

/-- `state.HasRunnableJob`: the runnable list is non-empty. -/
def hasRunnableJob (s : State) : Bool :=
  !s.runnableJobIDs.isEmpty

/-- `state.RemoveRunnableJob`: take the head of the runnable list, delete
it there, fetch the job via `GetJob`, delete it from the jobs namespace
(on failure the job is still returned together with the error), then
decrement the pending counter — unless it is already zero, in which case
the operation returns successfully without any checkpoint write — and
checkpoint the decremented counter. -/
def removeRunnableJob (f : Faults) (s : State) : (Option Job × Option Err) × State :=
  match s.runnableJobIDs.head? with
  | none => ((none, some .notFound), s)
  | some jobID =>
    if f.fails (.runnableDelete jobID) then
      ((none, some .ioError), s)
    else
      let s1 := { s with runnableJobIDs := bucketDelete s.runnableJobIDs jobID }
      match getJob s1 jobID with
      | (.error e, s2) => ((none, some e), s2)
      | (.ok job, s2) =>
        if f.fails (.jobsDelete jobID) then
          ((some job, some .ioError), s2)
        else
          let s3 := { s2 with jobs := kvDelete s2.jobs jobID }
          if s3.numPendingJobs = 0 then
            ((some job, none), s3)
          else
            let s4 := { s3 with numPendingJobs := s3.numPendingJobs - 1 }
            if f.fails .ckptPut then
              ((some job, some .ioError), s4)
            else
              ((some job, none),
               { s4 with pendingJobs := kvPut s4.pendingJobs pendingJobsKeyN s4.numPendingJobs })

/-- The ordered bucket of dependents recorded under a dependency id (the
linkeddb view over the per-dependency sub-namespace). -/
def getDependentsBucket (s : State) (dep : Nat) : List Nat :=
  (kvGet s.dependencies dep).getD []

/-- Replace the bucket recorded under a dependency id. -/
def putDependentsBucket (s : State) (dep : Nat) (b : List Nat) : State :=
  { s with dependencies := kvPut s.dependencies dep b }

/-- `state.getDependentsDB`'s effect on the bucket-handle cache: when
caching is enabled and the handle is not cached, it is inserted (LRU,
bounded by `dependentsCacheSize`). -/
def touchDependentsCache (s : State) (dep : Nat) : State :=
  if s.cachingEnabled then
    if dep ∈ s.dependentsCache then s
    else { s with dependentsCache := (dep :: s.dependentsCache).take dependentsCacheSize }
  else s

/-- `state.AddDependency`: record `dependent` in `dependency`'s bucket. -/
def addDependency (f : Faults) (s : State) (dependency dependent : Nat) :
    Option Err × State :=
  let s1 := touchDependentsCache s dependency
  if f.fails (.depPut dependency dependent) then
    (some .ioError, s1)
  else
    (none, putDependentsBucket s1 dependency
      (bucketPut (getDependentsBucket s1 dependency) dependent))

/-- The iterate-and-delete loop of `RemoveDependencies`: walk the snapshot
of the bucket in order, delete each entry from the persisted bucket, and
accumulate the ids; a failing delete aborts with the error and no result,
leaving the entries already deleted gone. -/
def removeDepsLoop (f : Faults) (dependency : Nat) :
    List Nat → List Nat → State → Except Err (List Nat) × State
  | [], acc, s => (.ok acc, s)
  | k :: rest, acc, s =>
    if f.fails (.depDelete dependency k) then
      (.error .ioError, s)
    else
      removeDepsLoop f dependency rest (acc ++ [k])
        (putDependentsBucket s dependency
          (bucketDelete (getDependentsBucket s dependency) k))

/-- `state.RemoveDependencies`: drain `dependency`'s bucket, returning the
dependent ids in order. -/
def removeDependencies (f : Faults) (s : State) (dependency : Nat) :
    Except Err (List Nat) × State :=
  let s1 := touchDependentsCache s dependency
  removeDepsLoop f dependency (getDependentsBucket s1 dependency) [] s1

/-- `state.DisableCaching`: flush both caches and permanently disable
caching. -/
def disableCaching (s : State) : State :=
  { s with dependentsCache := [], jobsCache := [], cachingEnabled := false }

/-- `state.AddMissingJobIDs`: put each id into the missing linked list,
stopping at the first failing write. -/
def addMissingJobIDs (f : Faults) (s : State) : List Nat → Option Err × State
  | [] => (none, s)
  | id :: rest =>
    if f.fails (.missingPut id) then
      (some .ioError, s)
    else
      addMissingJobIDs f { s with missingJobIDs := bucketPut s.missingJobIDs id } rest

/-- `state.RemoveMissingJobIDs`: delete each id from the missing linked
list, stopping at the first failing write. -/
def removeMissingJobIDs (f : Faults) (s : State) : List Nat → Option Err × State
  | [] => (none, s)
  | id :: rest =>
    if f.fails (.missingDelete id) then
      (some .ioError, s)
    else
      removeMissingJobIDs f { s with missingJobIDs := bucketDelete s.missingJobIDs id } rest

/-- `state.MissingJobIDs`: the materialized list of missing ids. -/
def missingJobIDs (s : State) : List Nat :=
  s.missingJobIDs

/-- `initializePendingJobs`: count the entries of the database it is
handed by full iteration.  In `newState` it is applied to the
pendingJobs checkpoint namespace. -/
def initializePendingJobs (d : List (Nat × Nat)) : Nat :=
  d.length

/-- `getPendingJobs`: read the checkpoint under `pendingJobsKey`; when it
is absent fall back to `initializePendingJobs` on the same namespace.
No write is performed on the fallback path. -/
def getPendingJobs (d : List (Nat × Nat)) : Nat :=
  match kvGet d pendingJobsKeyN with
  | some v => v
  | none => initializePendingJobs d

/-- The initial contents of the underlying database handed to `newState`,
split into the five prefixed namespaces. -/
structure InitDB where
  runnableNS : List Nat
  jobsNS : List (Nat × List Nat)
  dependenciesNS : List (Nat × List Nat)
  missingNS : List Nat
  pendingNS : List (Nat × Nat)

/-- `newState`: fresh caches, caching enabled, namespaces wired to the
prefixed views of the database, and the pending counter recovered by
`getPendingJobs` from the pendingJobs namespace. -/
def newState (p : List Nat → Except Err Job) (db : InitDB) : State :=
  { parser := p
    runnableJobIDs := db.runnableNS
    cachingEnabled := true
    jobsCache := []
    jobs := db.jobsNS
    dependencies := db.dependenciesNS
    dependentsCache := []
    missingJobIDs := db.missingNS
    pendingJobs := db.pendingNS
    numPendingJobs := getPendingJobs db.pendingNS }

/-- An empty database: every namespace empty. -/
def emptyInitDB : InitDB :=
  { runnableNS := [], jobsNS := [], dependenciesNS := [], missingNS := [], pendingNS := [] }

/-- The state of a queue freshly created over an empty database. -/
def emptyState (p : List Nat → Except Err Job) : State :=
  newState p emptyInitDB

/-- One call of the operation surface, for reasoning about arbitrary
sequences of operations. -/
inductive Op where
  | put (j : Job)
  | addRunnable (id : Nat)
  | remove
  | get (id : Nat)
  | addDep (dependency dependent : Nat)
  | removeDeps (dependency : Nat)
  | addMissing (l : List Nat)
  | removeMissing (l : List Nat)
  | disableCache

/-- A run of the queue together with the counts the counter law speaks
about: successful `PutJob` calls, successful `RemoveRunnableJob` calls,
and among the latter those that hit the zero guard (clamped). -/
structure RunStats where
  state : State
  puts : Nat
  removes : Nat
  clamped : Nat

/-- Execute one operation and update the success counts.  A
`RemoveRunnableJob` that succeeds while the pre-call counter is zero is
the clamped case. -/
def stepOp (f : Faults) (r : RunStats) : Op → RunStats
  | .put j =>
    let res := putJob f r.state j
    { r with
      state := res.2
      puts := r.puts + (if res.1 = none then 1 else 0) }
  | .addRunnable id => { r with state := (addRunnableJob f r.state id).2 }
  | .remove =>
    let pre := r.state.numPendingJobs
    let res := removeRunnableJob f r.state
    if res.1.2 = none then
      { r with
        state := res.2
        removes := r.removes + 1
        clamped := r.clamped + (if pre = 0 then 1 else 0) }
    else
      { r with state := res.2 }
  | .get id => { r with state := (getJob r.state id).2 }
  | .addDep dy dt => { r with state := (addDependency f r.state dy dt).2 }
  | .removeDeps dy => { r with state := (removeDependencies f r.state dy).2 }
  | .addMissing l => { r with state := (addMissingJobIDs f r.state l).2 }
  | .removeMissing l => { r with state := (removeMissingJobIDs f r.state l).2 }
  | .disableCache => { r with state := disableCaching r.state }

/-- Execute a sequence of operations. -/
def runOps (f : Faults) (r : RunStats) : List Op → RunStats
  | [] => r
  | op :: rest => runOps f (stepOp f r op) rest

/-- Apply `AddDependency` for the same pair repeatedly. -/
def addDependencyTimes (f : Faults) (s : State) (dependency dependent : Nat) :
    Nat → State
  | 0 => s
  | n + 1 =>
    addDependencyTimes f (addDependency f s dependency dependent).2 dependency dependent n

/-- A concrete job with id 1 and bytes `[10]`. -/
def jobA : Job := ⟨1, [10]⟩

/-- A concrete job with id 2 and bytes `[20]`. -/
def jobB : Job := ⟨2, [20]⟩

/-- A concrete parser that decodes the serializations of `jobA` and
`jobB` and rejects everything else. -/
def pDemo : List Nat → Except Err Job :=
  fun bs =>
    if bs = [10] then .ok jobA
    else if bs = [20] then .ok jobB
    else .error .parseError

/-- A pre-existing database, as left by a pre-checkpoint deployment: one
job (id 1) in the jobs namespace, its id in the runnable queue, and no
pendingJobs checkpoint. -/
def dbLegacy : InitDB :=
  { runnableNS := [1]
    jobsNS := [(1, [10])]
    dependenciesNS := []
    missingNS := []
    pendingNS := [] }

/-- A fault oracle whose only failing write is the jobs-namespace `Put`
of key 1. -/
def faultJobsPut1 : Faults := ⟨fun op => op = .jobsPut 1⟩

/-- A fault oracle whose only failing write is the delete of dependent 8
from dependency 5's bucket. -/
def faultDepDelete58 : Faults := ⟨fun op => op = .depDelete 5 8⟩

/-- A state holding dependents 7, 8, 9 of dependency 5, built by three
`AddDependency` calls over the empty queue. -/
def c6State : State :=
  (addDependency noFaults
    (addDependency noFaults
      (addDependency noFaults (emptyState pDemo) 5 7).2 5 8).2 5 9).2

/-- The empty queue after a successful `PutJob` of `jobA` (the job is
resident in the jobs namespace and in the content cache). -/
def afterPutA : State := (putJob noFaults (emptyState pDemo) jobA).2

/-- A database whose jobs namespace holds bytes that the parser rejects. -/
def dbBadBytes : InitDB :=
  { runnableNS := [], jobsNS := [(3, [99])], dependenciesNS := [], missingNS := [], pendingNS := [] }

/-- The empty queue after recording id 3 in the Missing Set. -/
def missingHolds3 : State := (addMissingJobIDs noFaults (emptyState pDemo) [3]).2

/-- The result of a full put–enqueue–dequeue round with caching enabled:
`PutJob(jobA)`, `AddRunnableJob(1)`, then `RemoveRunnableJob()`. -/
def c1Run : (Option Job × Option Err) × State :=
  removeRunnableJob noFaults
    (addRunnableJob noFaults (putJob noFaults (emptyState pDemo) jobA).2 1).2

/-- The caching-disabled queue holding `jobA`, with its id enqueued as
runnable. -/
def disabledQueued : State :=
  (addRunnableJob noFaults
    (putJob noFaults (disableCaching (emptyState pDemo)) jobA).2 1).2

/-- The successful clamped dequeue over the legacy database: `newState`
recovers a zero pending count (no checkpoint), so the dequeue hits the
zero guard. -/
def c4Run : (Option Job × Option Err) × State :=
  removeRunnableJob noFaults (newState pDemo dbLegacy)

/-- The operation sequence of the C3 counterexample: the dequeued job
stays in the content cache, so re-enqueueing its id lets it be dequeued
a second time (the second dequeue is clamped). -/
def c3Run : RunStats :=
  runOps noFaults ⟨emptyState pDemo, 0, 0, 0⟩
    [.put jobA, .addRunnable 1, .remove, .addRunnable 1, .remove, .put jobB]

section Lemmas

lemma kvGet_kvPut_self {α : Type} (m : List (Nat × α)) (k : Nat) (v : α) :
    kvGet (kvPut m k v) k = some v := by
  simp [kvGet, kvPut, List.find?]

lemma kvGet_kvDelete_self {α : Type} (m : List (Nat × α)) (k : Nat) :
    kvGet (kvDelete m k) k = none := by
  have hfind : List.find? (fun p => p.1 == k) (List.filter (fun p => p.1 != k) m) = none := by
    rw [List.find?_eq_none]
    intro p hp
    rcases List.mem_filter.1 hp with ⟨_, hne⟩
    simpa using hne
  simp [kvGet, kvDelete, hfind]

lemma cacheGet_cachePut_self {α : Type} (c : List (Nat × α)) (cap k : Nat) (v : α)
    (h : cap ≠ 0) : cacheGet (cachePut c cap k v) k = some v := by
  cases cap with
  | zero => exact absurd rfl h
  | succ n => simp [cacheGet, cachePut, kvGet, List.take_succ_cons, List.find?]

lemma jobsCacheSize_ne_zero : jobsCacheSize ≠ 0 := by decide

lemma bucketPut_mem (b : List Nat) (k : Nat) (h : k ∈ b) : bucketPut b k = b := by
  simp [bucketPut, h]

lemma bucketPut_not_mem (b : List Nat) (k : Nat) (h : k ∉ b) :
    bucketPut b k = b ++ [k] := by
  simp [bucketPut, h]

lemma bucketDelete_not_mem (b : List Nat) (k : Nat) (h : k ∉ b) :
    bucketDelete b k = b := by
  rw [bucketDelete, List.filter_eq_self]
  intro a ha
  simp only [bne_iff_ne, ne_eq]
  intro he
  exact h (he ▸ ha)

lemma bucketDelete_cons_self (l : List Nat) (x : Nat) :
    bucketDelete (x :: l) x = bucketDelete l x := by
  simp [bucketDelete]

lemma touchDependentsCache_dependencies (s : State) (dep : Nat) :
    (touchDependentsCache s dep).dependencies = s.dependencies := by
  unfold touchDependentsCache
  split
  · split <;> rfl
  · rfl

lemma getDependentsBucket_touch (s : State) (dep d : Nat) :
    getDependentsBucket (touchDependentsCache s dep) d = getDependentsBucket s d := by
  simp [getDependentsBucket, touchDependentsCache_dependencies]

lemma getDependentsBucket_put_self (s : State) (dep : Nat) (b : List Nat) :
    getDependentsBucket (putDependentsBucket s dep b) dep = b := by
  simp [getDependentsBucket, putDependentsBucket, kvGet_kvPut_self]

lemma removeDepsLoop_noFaults_fst (dep : Nat) :
    ∀ todo acc s, (removeDepsLoop noFaults dep todo acc s).1 = .ok (acc ++ todo) := by
  intro todo
  induction todo with
  | nil => intro acc s; simp [removeDepsLoop]
  | cons k rest ih =>
    intro acc s
    have hno : noFaults.fails (.depDelete dep k) = false := rfl
    simp [removeDepsLoop, hno, ih]

lemma removeDepsLoop_noFaults_bucket (dep : Nat) :
    ∀ todo acc s,
      getDependentsBucket (removeDepsLoop noFaults dep todo acc s).2 dep =
        todo.foldl bucketDelete (getDependentsBucket s dep) := by
  intro todo
  induction todo with
  | nil => intro acc s; simp [removeDepsLoop]
  | cons k rest ih =>
    intro acc s
    have hno : noFaults.fails (.depDelete dep k) = false := rfl
    simp [removeDepsLoop, hno, ih, getDependentsBucket_put_self]

lemma foldl_bucketDelete_nil :
    ∀ l b : List Nat, (∀ x ∈ b, x ∈ l) → l.foldl bucketDelete b = [] := by
  intro l
  induction l with
  | nil =>
    intro b h
    have hb : b = [] := by
      cases b with
      | nil => rfl
      | cons x xs => exact absurd (h x (by simp)) (List.not_mem_nil x)
    simp [hb]
  | cons k rest ih =>
    intro b h
    simp only [List.foldl_cons]
    apply ih
    intro x hx
    rcases List.mem_filter.1 hx with ⟨hxb, hxk⟩
    have hxk' : x ≠ k := by simpa using hxk
    have := h x hxb
    simp only [List.mem_cons] at this
    exact this.resolve_left hxk'

lemma removeDependencies_noFaults_fst (s : State) (D : Nat) :
    (removeDependencies noFaults s D).1 = .ok (getDependentsBucket s D) := by
  simp [removeDependencies, removeDepsLoop_noFaults_fst, getDependentsBucket_touch]

lemma removeDependencies_noFaults_bucket (s : State) (D : Nat) :
    getDependentsBucket (removeDependencies noFaults s D).2 D = [] := by
  simp only [removeDependencies, removeDepsLoop_noFaults_bucket, getDependentsBucket_touch]
  exact foldl_bucketDelete_nil _ _ (fun x hx => hx)

lemma count_bucketPut_self (b : List Nat) (X : Nat) (h : List.count X b ≤ 1) :
    List.count X (bucketPut b X) = 1 := by
  by_cases hm : X ∈ b
  · rw [bucketPut_mem _ _ hm]
    have h1 : 0 < List.count X b := List.count_pos_iff.2 hm
    omega
  · rw [bucketPut_not_mem _ _ hm]
    simp [List.count_append, List.count_eq_zero_of_not_mem hm]

lemma addDependency_noFaults_bucket (s : State) (D X d : Nat) :
    getDependentsBucket (addDependency noFaults s D X).2 d =
      getDependentsBucket (putDependentsBucket (touchDependentsCache s D) D
        (bucketPut (getDependentsBucket s D) X)) d := by
  simp [addDependency, noFaults, getDependentsBucket_touch]

lemma addDependencyTimes_count (D X : Nat) :
    ∀ (n : Nat) (s : State), List.count X (getDependentsBucket s D) ≤ 1 →
      List.count X (getDependentsBucket (addDependencyTimes noFaults s D X (n + 1)) D) = 1 := by
  intro n
  induction n with
  | zero =>
    intro s h
    simp only [addDependencyTimes, addDependency_noFaults_bucket,
      getDependentsBucket_put_self, getDependentsBucket_touch]
    exact count_bucketPut_self _ _ h
  | succ m ih =>
    intro s h
    show List.count X (getDependentsBucket
      (addDependencyTimes noFaults (addDependency noFaults s D X).2 D X (m + 1)) D) = 1
    apply ih
    rw [addDependency_noFaults_bucket, getDependentsBucket_put_self,
      count_bucketPut_self _ _ h]

lemma removeDepsLoop_fault (f : Faults) (D k : Nat) (ys : List Nat)
    (hk : f.fails (.depDelete D k) = true) :
    ∀ (xs : List Nat) (s : State) (acc : List Nat),
      getDependentsBucket s D = xs ++ k :: ys →
      (xs ++ k :: ys).Nodup →
      (∀ x ∈ xs, f.fails (.depDelete D x) = false) →
      (removeDepsLoop f D (xs ++ k :: ys) acc s).1 = .error .ioError ∧
      getDependentsBucket (removeDepsLoop f D (xs ++ k :: ys) acc s).2 D = k :: ys := by
  intro xs
  induction xs with
  | nil =>
    intro s acc hb _ _
    simp [removeDepsLoop, hk, hb]
  | cons x xs ih =>
    intro s acc hb hnd hxs
    have hxfail : f.fails (.depDelete D x) = false := hxs x (by simp)
    simp only [List.cons_append, removeDepsLoop, hxfail, Bool.false_eq_true, if_false]
    apply ih
    · rw [getDependentsBucket_put_self, hb]
      rw [List.cons_append] at hnd
      have hxnot : x ∉ xs ++ k :: ys := (List.nodup_cons.1 hnd).1
      rw [List.cons_append, bucketDelete_cons_self, bucketDelete_not_mem _ _ hxnot]
    · rw [List.cons_append] at hnd
      exact (List.nodup_cons.1 hnd).2
    · intro x' hx'
      exact hxs x' (by simp [hx'])

lemma getJob_fields (s : State) (id : Nat) :
    (getJob s id).2.numPendingJobs = s.numPendingJobs ∧
    (getJob s id).2.jobs = s.jobs ∧
    (getJob s id).2.cachingEnabled = s.cachingEnabled ∧
    (getJob s id).2.pendingJobs = s.pendingJobs ∧
    (getJob s id).2.runnableJobIDs = s.runnableJobIDs ∧
    (getJob s id).2.parser = s.parser := by
  unfold getJob getJobFromStore
  repeat' split
  all_goals simp

lemma getJob_disabled_snd (s : State) (id : Nat) (hc : s.cachingEnabled = false) :
    (getJob s id).2 = s := by
  unfold getJob getJobFromStore
  simp only [hc]
  repeat' split
  all_goals first | rfl | simp_all

lemma getJobFromStore_fst (s : State) (id : Nat) (bs : List Nat)
    (hbs : kvGet s.jobs id = some bs) :
    (getJobFromStore s id).1 = s.parser bs := by
  rcases hp : s.parser bs with e | j
  · simp [getJobFromStore, hbs, hp]
  · simp only [getJobFromStore, hbs, hp]
    split <;> rfl

lemma putJob_ok (f : Faults) (s : State) (j : Job) (s' : State)
    (h : putJob f s j = (none, s')) :
    f.fails (.jobsPut j.jid) = false ∧ f.fails .ckptPut = false ∧
    s'.numPendingJobs = s.numPendingJobs + 1 ∧
    kvGet s'.pendingJobs pendingJobsKeyN = some s'.numPendingJobs ∧
    s'.cachingEnabled = s.cachingEnabled ∧
    s'.jobs = kvPut s.jobs j.jid j.bytes ∧
    s'.jobsCache = (if s.cachingEnabled = true then
      cachePut s.jobsCache jobsCacheSize j.jid j else s.jobsCache) := by
  simp only [putJob] at h
  split at h
  · simp at h
  · split at h
    · simp at h
    · rename_i hput hck
      simp only [Prod.mk.injEq] at h
      obtain ⟨-, hs⟩ := h
      subst hs
      refine ⟨by simpa using hput, by simpa using hck, ?_, ?_, ?_, ?_, ?_⟩ <;>
        by_cases hc : s.cachingEnabled <;> simp [hc, kvGet_kvPut_self]

lemma putJob_err_counter (f : Faults) (s : State) (j : Job) (e : Err) (s' : State)
    (hck : f.fails .ckptPut = false)
    (h : putJob f s j = (some e, s')) :
    s'.numPendingJobs = s.numPendingJobs := by
  simp only [putJob] at h
  split at h
  · simp only [Prod.mk.injEq] at h
    obtain ⟨-, hs⟩ := h
    subst hs
    by_cases hc : s.cachingEnabled <;> simp [hc]
  · rw [hck] at h
    simp at h

lemma removeRunnableJob_ok (f : Faults) (s : State) (oj : Option Job) (s' : State)
    (h : removeRunnableJob f s = ((oj, none), s')) :
    ∃ k job s2,
      s.runnableJobIDs.head? = some k ∧
      oj = some job ∧
      getJob { s with runnableJobIDs := bucketDelete s.runnableJobIDs k } k = (.ok job, s2) ∧
      ((s2.numPendingJobs = 0 ∧ s' = { s2 with jobs := kvDelete s2.jobs k }) ∨
       (s2.numPendingJobs ≠ 0 ∧
         s' = { s2 with
                  jobs := kvDelete s2.jobs k
                  numPendingJobs := s2.numPendingJobs - 1
                  pendingJobs := kvPut s2.pendingJobs pendingJobsKeyN
                    (s2.numPendingJobs - 1) })) := by
  simp only [removeRunnableJob] at h
  split at h
  · simp at h
  · rename_i k hk
    split at h
    · simp at h
    · split at h
      · simp at h
      · rename_i job s2 hg
        split at h
        · simp at h
        · split at h
          · rename_i hzero
            simp only [Prod.mk.injEq] at h
            obtain ⟨⟨hoj, -⟩, hs⟩ := h
            exact ⟨k, job, s2, hk, hoj.symm, hg,
              Or.inl ⟨by simpa using hzero, hs.symm⟩⟩
          · rename_i hnz
            split at h
            · simp at h
            · simp only [Prod.mk.injEq] at h
              obtain ⟨⟨hoj, -⟩, hs⟩ := h
              exact ⟨k, job, s2, hk, hoj.symm, hg,
                Or.inr ⟨by simpa using hnz, hs.symm⟩⟩

lemma removeRunnableJob_err_counter (f : Faults) (s : State) (oj : Option Job)
    (e : Err) (s' : State) (hck : f.fails .ckptPut = false)
    (h : removeRunnableJob f s = ((oj, some e), s')) :
    s'.numPendingJobs = s.numPendingJobs := by
  simp only [removeRunnableJob] at h
  split at h
  · simp only [Prod.mk.injEq] at h
    obtain ⟨-, hs⟩ := h
    subst hs
    rfl
  · rename_i k hk
    split at h
    · simp only [Prod.mk.injEq] at h
      obtain ⟨-, hs⟩ := h
      subst hs
      rfl
    · split at h
      · rename_i e' s2 hg
        simp only [Prod.mk.injEq] at h
        obtain ⟨-, hs⟩ := h
        subst hs
        have := (getJob_fields { s with runnableJobIDs := bucketDelete s.runnableJobIDs k } k).1
        rw [hg] at this
        simpa using this
      · rename_i job s2 hg
        split at h
        · simp only [Prod.mk.injEq] at h
          obtain ⟨-, hs⟩ := h
          subst hs
          have := (getJob_fields { s with runnableJobIDs := bucketDelete s.runnableJobIDs k } k).1
          rw [hg] at this
          simpa using this
        · split at h
          · simp at h
          · split at h
            · simp_all
            · simp at h

lemma addRunnableJob_counter (f : Faults) (s : State) (id : Nat) :
    (addRunnableJob f s id).2.numPendingJobs = s.numPendingJobs := by
  unfold addRunnableJob
  split <;> rfl

lemma addDependency_counter (f : Faults) (s : State) (dy dt : Nat) :
    (addDependency f s dy dt).2.numPendingJobs = s.numPendingJobs := by
  unfold addDependency putDependentsBucket touchDependentsCache
  repeat' split
  all_goals rfl

lemma removeDepsLoop_counter (f : Faults) (dep : Nat) :
    ∀ todo acc s, (removeDepsLoop f dep todo acc s).2.numPendingJobs = s.numPendingJobs := by
  intro todo
  induction todo with
  | nil => intro acc s; rfl
  | cons k rest ih =>
    intro acc s
    unfold removeDepsLoop
    split
    · rfl
    · rw [ih]
      rfl

lemma removeDependencies_counter (f : Faults) (s : State) (dy : Nat) :
    (removeDependencies f s dy).2.numPendingJobs = s.numPendingJobs := by
  unfold removeDependencies
  rw [removeDepsLoop_counter]
  unfold touchDependentsCache
  repeat' split
  all_goals rfl

lemma addMissingJobIDs_counter (f : Faults) :
    ∀ (l : List Nat) (s : State),
      (addMissingJobIDs f s l).2.numPendingJobs = s.numPendingJobs := by
  intro l
  induction l with
  | nil => intro s; rfl
  | cons id rest ih =>
    intro s
    unfold addMissingJobIDs
    split
    · rfl
    · rw [ih]

lemma removeMissingJobIDs_counter (f : Faults) :
    ∀ (l : List Nat) (s : State),
      (removeMissingJobIDs f s l).2.numPendingJobs = s.numPendingJobs := by
  intro l
  induction l with
  | nil => intro s; rfl
  | cons id rest ih =>
    intro s
    unfold removeMissingJobIDs
    split
    · rfl
    · rw [ih]

lemma removeRunnableJob_ok_counter (f : Faults) (s : State) (oj : Option Job)
    (s' : State) (h : removeRunnableJob f s = ((oj, none), s')) :
    (s.numPendingJobs = 0 ∧ s'.numPendingJobs = 0) ∨
    (s.numPendingJobs ≠ 0 ∧ s'.numPendingJobs = s.numPendingJobs - 1) := by
  obtain ⟨k, job, s2, hk, hoj, hg, hcases⟩ := removeRunnableJob_ok f s oj s' h
  have h2 : s2.numPendingJobs = s.numPendingJobs := by
    have := (getJob_fields { s with runnableJobIDs := bucketDelete s.runnableJobIDs k } k).1
    rw [hg] at this
    simpa using this
  rcases hcases with ⟨hz, hs'⟩ | ⟨hnz, hs'⟩
  · subst hs'
    exact Or.inl ⟨by omega, by simpa using hz⟩
  · subst hs'
    exact Or.inr ⟨by omega, by simp [h2]⟩

lemma stepOp_invariant (f : Faults) (hck : f.fails .ckptPut = false)
    (r : RunStats) (op : Op)
    (h : r.state.numPendingJobs + r.removes = r.puts + r.clamped) :
    (stepOp f r op).state.numPendingJobs + (stepOp f r op).removes =
      (stepOp f r op).puts + (stepOp f r op).clamped := by
  cases op with
  | put j =>
    rcases hp : putJob f r.state j with ⟨oe, s'⟩
    cases oe with
    | none =>
      have hc := (putJob_ok f r.state j s' hp).2.2.1
      simp only [stepOp, hp]
      simp
      omega
    | some e =>
      have hc := putJob_err_counter f r.state j e s' hck hp
      simp only [stepOp, hp]
      simp
      omega
  | addRunnable id =>
    simp only [stepOp]
    rw [addRunnableJob_counter]
    exact h
  | remove =>
    rcases hr : removeRunnableJob f r.state with ⟨⟨oj, oe⟩, s'⟩
    cases oe with
    | none =>
      have hc := removeRunnableJob_ok_counter f r.state oj s' hr
      simp only [stepOp, hr]
      rcases hc with ⟨hz, hz'⟩ | ⟨hnz, hdec⟩
      · simp [hz, hz']
        omega
      · simp [hnz, hdec]
        omega
    | some e =>
      have hc := removeRunnableJob_err_counter f r.state oj e s' hck hr
      simp only [stepOp, hr]
      simp
      omega
  | get id =>
    simp only [stepOp]
    rw [(getJob_fields r.state id).1]
    exact h
  | addDep dy dt =>
    simp only [stepOp]
    rw [addDependency_counter]
    exact h
  | removeDeps dy =>
    simp only [stepOp]
    rw [removeDependencies_counter]
    exact h
  | addMissing l =>
    simp only [stepOp]
    rw [addMissingJobIDs_counter]
    exact h
  | removeMissing l =>
    simp only [stepOp]
    rw [removeMissingJobIDs_counter]
    exact h
  | disableCache =>
    simp only [stepOp, disableCaching]
    exact h

lemma runOps_invariant (f : Faults) (hck : f.fails .ckptPut = false) :
    ∀ (ops : List Op) (r : RunStats),
      r.state.numPendingJobs + r.removes = r.puts + r.clamped →
      (runOps f r ops).state.numPendingJobs + (runOps f r ops).removes =
        (runOps f r ops).puts + (runOps f r ops).clamped := by
  intro ops
  induction ops with
  | nil => intro r h; exact h
  | cons op rest ih =>
    intro r h
    exact ih (stepOp f r op) (stepOp_invariant f hck r op h)

end Lemmas

/-- C1 counterexample: with caching enabled (the `newState` default), a
put–enqueue–dequeue round dequeues `jobA` successfully, yet
`HasJob(jobA.ID())` still returns true afterwards, because the dequeue
path never evicts the content cache — the claim asserts it returns
false in this configuration. -/
theorem c1_counterexample :
    c1Run.1 = (some jobA, none) ∧
    (emptyState pDemo).cachingEnabled = true ∧
    hasJob c1Run.2 jobA.jid = true := by
  decide

/-- C1 (amended): after a successful `PutJob(J)`, `HasJob(J.ID())` is true
in both configurations; after `J` is dequeued by a successful
`RemoveRunnableJob`, `HasJob(J.ID())` is false in the caching-disabled
configuration.  (With caching enabled it remains true — the dequeue does
not evict the content cache; see the counterexample.) -/
theorem c1_presence_amended :
    (∀ f s j s', putJob f s j = (none, s') → hasJob s' j.jid = true) ∧
    (∀ f s k j s', s.cachingEnabled = false →
      s.runnableJobIDs.head? = some k →
      removeRunnableJob f s = ((some j, none), s') →
      j.jid = k →
      hasJob s' j.jid = false) := by
  constructor
  · intro f s j s' h
    obtain ⟨-, -, -, -, hc, hjobs, hcache⟩ := putJob_ok f s j s' h
    by_cases hen : s.cachingEnabled = true
    · simp [hasJob, hc, hen, hcache, cacheGet_cachePut_self _ _ _ _ jobsCacheSize_ne_zero]
    · simp [hasJob, hc, hen, hcache, hjobs, kvGet_kvPut_self]
  · intro f s k j s' hc hk h hjk
    obtain ⟨k', job, s2, hk', hoj, hg, hcases⟩ := removeRunnableJob_ok f s (some j) s' h
    rw [hk] at hk'
    injection hk' with hkk
    subst hkk
    have hs1c : ({ s with runnableJobIDs := bucketDelete s.runnableJobIDs k }).cachingEnabled
        = false := hc
    have hs2 : s2 = { s with runnableJobIDs := bucketDelete s.runnableJobIDs k } := by
      have hgs := getJob_disabled_snd
        { s with runnableJobIDs := bucketDelete s.runnableJobIDs k } k hs1c
      rw [hg] at hgs
      exact hgs
    rcases hcases with ⟨-, hs'⟩ | ⟨-, hs'⟩ <;>
      subst hs' <;>
      simp [hasJob, hjk, hs2, hc, kvGet_kvDelete_self]

/-- Witness for C1: the put half over the empty queue with caching, and
the dequeue half over the caching-disabled queue. -/
theorem c1_presence_amended_witness :
    hasJob afterPutA jobA.jid = true ∧
    hasJob (removeRunnableJob noFaults disabledQueued).2 jobA.jid = false :=
  ⟨c1_presence_amended.1 noFaults (emptyState pDemo) jobA afterPutA rfl,
   c1_presence_amended.2 noFaults disabledQueued 1 jobA
     (removeRunnableJob noFaults disabledQueued).2 rfl rfl rfl rfl⟩

/-- C2 (code bug): opened over a database whose jobs namespace holds one
job and whose pendingJobs namespace has no checkpoint, `newState`
recovers a pending count of 0 — not 1 — because `getPendingJobs` falls
back to scanning the (empty) pendingJobs checkpoint namespace rather
than the jobs namespace, and it persists nothing: the checkpoint is
still absent afterwards. -/
theorem c2_recovery_scans_wrong_namespace :
    (newState pDemo dbLegacy).numPendingJobs = 0 ∧
    kvGet (newState pDemo dbLegacy).pendingJobs pendingJobsKeyN = none ∧
    dbLegacy.jobsNS.length = 1 ∧
    getPendingJobs dbLegacy.pendingNS = initializePendingJobs dbLegacy.pendingNS ∧
    initializePendingJobs dbLegacy.pendingNS = 0 :=
  ⟨rfl, rfl, rfl, rfl, rfl⟩

/-- C4 counterexample: over the legacy database (no checkpoint on disk),
the clamped dequeue succeeds without performing any checkpoint write —
the in-memory count is 0 but the persisted pendingJobs value is still
absent, contradicting the claim that every successful counter-mutating
operation checkpoints. -/
theorem c4_counterexample :
    c4Run.1.2 = none ∧
    c4Run.2.numPendingJobs = 0 ∧
    kvGet c4Run.2.pendingJobs pendingJobsKeyN = none := by
  decide

/-- C4 (amended): every successful `PutJob` and every successful
non-clamped `RemoveRunnableJob` ends with a checkpoint write that makes
the persisted pendingJobs value equal the in-memory count; a successful
clamped dequeue performs no checkpoint write at all — it leaves the
persisted namespace and the (zero) in-memory count unchanged. -/
theorem c4_checkpoint_amended :
    (∀ f s j s', putJob f s j = (none, s') →
      kvGet s'.pendingJobs pendingJobsKeyN = some s'.numPendingJobs) ∧
    (∀ f s oj s', removeRunnableJob f s = ((oj, none), s') →
      s.numPendingJobs ≠ 0 →
      kvGet s'.pendingJobs pendingJobsKeyN = some s'.numPendingJobs) ∧
    (∀ f s oj s', removeRunnableJob f s = ((oj, none), s') →
      s.numPendingJobs = 0 →
      s'.pendingJobs = s.pendingJobs ∧ s'.numPendingJobs = 0) := by
  refine ⟨?_, ?_, ?_⟩
  · intro f s j s' h
    exact (putJob_ok f s j s' h).2.2.2.1
  · intro f s oj s' h hnz
    obtain ⟨k, job, s2, hk, hoj, hg, hcases⟩ := removeRunnableJob_ok f s oj s' h
    have hfields := getJob_fields
      { s with runnableJobIDs := bucketDelete s.runnableJobIDs k } k
    rw [hg] at hfields
    simp only [] at hfields
    rcases hcases with ⟨h0, -⟩ | ⟨-, hs'⟩
    · have h2 := hfields.1
      simp at h2
      omega
    · subst hs'
      simp [kvGet_kvPut_self]
  · intro f s oj s' h h0
    obtain ⟨k, job, s2, hk, hoj, hg, hcases⟩ := removeRunnableJob_ok f s oj s' h
    have hfields := getJob_fields
      { s with runnableJobIDs := bucketDelete s.runnableJobIDs k } k
    rw [hg] at hfields
    simp at hfields
    rcases hcases with ⟨hz, hs'⟩ | ⟨hnz, -⟩
    · subst hs'
      exact ⟨by simp [hfields.2.2.2.1], by simp [hz]⟩
    · have h2 := hfields.1
      omega

/-- Witness for C4: the put half on the empty queue, the non-clamped
dequeue half on a queue holding one pending job, and the clamped half on
the legacy database. -/
theorem c4_checkpoint_amended_witness :
    kvGet afterPutA.pendingJobs pendingJobsKeyN = some afterPutA.numPendingJobs ∧
    kvGet (removeRunnableJob noFaults
        (addRunnableJob noFaults afterPutA 1).2).2.pendingJobs pendingJobsKeyN =
      some (removeRunnableJob noFaults
        (addRunnableJob noFaults afterPutA 1).2).2.numPendingJobs ∧
    (c4Run.2.pendingJobs = (newState pDemo dbLegacy).pendingJobs ∧
      c4Run.2.numPendingJobs = 0) :=
  ⟨c4_checkpoint_amended.1 noFaults (emptyState pDemo) jobA afterPutA rfl,
   c4_checkpoint_amended.2.1 noFaults (addRunnableJob noFaults afterPutA 1).2
     (some jobA) (removeRunnableJob noFaults (addRunnableJob noFaults afterPutA 1).2).2
     rfl (by decide),
   c4_checkpoint_amended.2.2 noFaults (newState pDemo dbLegacy) (some jobA) c4Run.2
     rfl rfl⟩

/-- C8: `DisableCaching` flushes both the content cache and the
dependency-bucket handle cache and permanently disables caching; and for
every id resident in the jobs namespace, `GetJob` after `DisableCaching`
returns the same result as it would with caching still enabled — under
the coherence hypothesis that whatever the cache held for that id is
what the parser decodes the stored bytes to, which holds in every
reachable state when the Parser collaborator inverts `Job.Bytes()`. -/
theorem c8_disable_caching_transparent :
    (∀ s, (disableCaching s).jobsCache = [] ∧
      (disableCaching s).dependentsCache = [] ∧
      (disableCaching s).cachingEnabled = false) ∧
    (∀ s id bs, kvGet s.jobs id = some bs →
      (∀ j, cacheGet s.jobsCache id = some j → s.parser bs = .ok j) →
      (getJob (disableCaching s) id).1 = (getJob s id).1) := by
  constructor
  · intro s
    exact ⟨rfl, rfl, rfl⟩
  · intro s id bs hbs hcoh
    have hdisL : getJob (disableCaching s) id = getJobFromStore (disableCaching s) id := by
      simp [getJob, disableCaching]
    have hF : (getJobFromStore (disableCaching s) id).1 = s.parser bs :=
      getJobFromStore_fst (disableCaching s) id bs hbs
    cases hc : s.cachingEnabled with
    | false =>
      have : getJob s id = getJobFromStore s id := by simp [getJob, hc]
      rw [hdisL, hF, this, getJobFromStore_fst s id bs hbs]
    | true =>
      cases hcache : cacheGet s.jobsCache id with
      | none =>
        have : getJob s id = getJobFromStore s id := by simp [getJob, hc, hcache]
        rw [hdisL, hF, this, getJobFromStore_fst s id bs hbs]
      | some j =>
        have : getJob s id = (.ok j, s) := by simp [getJob, hc, hcache]
        rw [hdisL, hF, this, hcoh j hcache]

/-- Witness for C8: the queue holding `jobA` both in the store and in the
cache — `GetJob 1` yields the same result before and after
`DisableCaching`. -/
theorem c8_disable_caching_transparent_witness :
    ((disableCaching afterPutA).jobsCache = [] ∧
      (disableCaching afterPutA).dependentsCache = [] ∧
      (disableCaching afterPutA).cachingEnabled = false) ∧
    (getJob (disableCaching afterPutA) 1).1 = (getJob afterPutA 1).1 :=
  ⟨c8_disable_caching_transparent.1 afterPutA,
   c8_disable_caching_transparent.2 afterPutA 1 [10] rfl
     (fun j h => by
       have h' : some jobA = some j := h
       cases h'
       rfl)⟩

/-- C3 counterexample: with caching enabled, a dequeued job remains in
the content cache, so re-enqueueing its id lets `RemoveRunnableJob`
succeed a second time (clamped at zero).  The sequence
put A, enqueue, dequeue, enqueue, dequeue, put B has N = 2 successful
puts and M = 2 ≤ N successful dequeues, yet the pending counter ends at
1, not N − M = 0. -/
theorem c3_counterexample :
    c3Run.puts = 2 ∧ c3Run.removes = 2 ∧ c3Run.removes ≤ c3Run.puts ∧
    c3Run.state.numPendingJobs ≠ c3Run.puts - c3Run.removes := by
  decide

/-- C3 (amended): over any fault-free-checkpoint run from a zero-counter
state, the pending counter satisfies counter + M = N + C, where N and M
count the successful `PutJob` and `RemoveRunnableJob` calls and C the
clamped dequeues; hence when no dequeue was clamped the counter equals
N − M with M ≤ N.  The counter never goes negative: a successful dequeue
that finds the counter at zero leaves it at zero instead of failing. -/
theorem c3_counter_law_amended :
    (∀ (f : Faults) (ops : List Op) (s0 : State),
      f.fails .ckptPut = false → s0.numPendingJobs = 0 →
      (runOps f ⟨s0, 0, 0, 0⟩ ops).state.numPendingJobs
          + (runOps f ⟨s0, 0, 0, 0⟩ ops).removes
        = (runOps f ⟨s0, 0, 0, 0⟩ ops).puts + (runOps f ⟨s0, 0, 0, 0⟩ ops).clamped) ∧
    (∀ (f : Faults) (ops : List Op) (s0 : State),
      f.fails .ckptPut = false → s0.numPendingJobs = 0 →
      (runOps f ⟨s0, 0, 0, 0⟩ ops).clamped = 0 →
      (runOps f ⟨s0, 0, 0, 0⟩ ops).state.numPendingJobs
          = (runOps f ⟨s0, 0, 0, 0⟩ ops).puts - (runOps f ⟨s0, 0, 0, 0⟩ ops).removes ∧
        (runOps f ⟨s0, 0, 0, 0⟩ ops).removes ≤ (runOps f ⟨s0, 0, 0, 0⟩ ops).puts) ∧
    (∀ (f : Faults) (s : State) (oj : Option Job) (s' : State),
      removeRunnableJob f s = ((oj, none), s') → s.numPendingJobs = 0 →
      s'.numPendingJobs = 0) := by
  refine ⟨?_, ?_, ?_⟩
  · intro f ops s0 hck h0
    exact runOps_invariant f hck ops ⟨s0, 0, 0, 0⟩ (by simp [h0])
  · intro f ops s0 hck h0 hcl
    have h := runOps_invariant f hck ops ⟨s0, 0, 0, 0⟩ (by simp [h0])
    rw [hcl] at h
    omega
  · intro f s oj s' h h0
    rcases removeRunnableJob_ok_counter f s oj s' h with ⟨-, hz⟩ | ⟨hnz, -⟩
    · exact hz
    · exact absurd h0 hnz

/-- Witness for C3: a put–enqueue–dequeue run over the empty queue (one
put, one non-clamped dequeue), and the clamped dequeue over the legacy
database. -/
theorem c3_counter_law_amended_witness :
    ((runOps noFaults ⟨emptyState pDemo, 0, 0, 0⟩
        [.put jobA, .addRunnable 1, .remove]).state.numPendingJobs
      + (runOps noFaults ⟨emptyState pDemo, 0, 0, 0⟩
        [.put jobA, .addRunnable 1, .remove]).removes
      = (runOps noFaults ⟨emptyState pDemo, 0, 0, 0⟩
          [.put jobA, .addRunnable 1, .remove]).puts
        + (runOps noFaults ⟨emptyState pDemo, 0, 0, 0⟩
          [.put jobA, .addRunnable 1, .remove]).clamped) ∧
    ((runOps noFaults ⟨emptyState pDemo, 0, 0, 0⟩
        [.put jobA, .addRunnable 1, .remove]).state.numPendingJobs
      = (runOps noFaults ⟨emptyState pDemo, 0, 0, 0⟩
          [.put jobA, .addRunnable 1, .remove]).puts
        - (runOps noFaults ⟨emptyState pDemo, 0, 0, 0⟩
          [.put jobA, .addRunnable 1, .remove]).removes) ∧
    (removeRunnableJob noFaults (newState pDemo dbLegacy)).2.numPendingJobs = 0 :=
  ⟨c3_counter_law_amended.1 noFaults [.put jobA, .addRunnable 1, .remove]
      (emptyState pDemo) rfl rfl,
   (c3_counter_law_amended.2.1 noFaults [.put jobA, .addRunnable 1, .remove]
      (emptyState pDemo) rfl rfl (by decide)).1,
   c3_counter_law_amended.2.2 noFaults (newState pDemo dbLegacy) (some jobA)
      (removeRunnableJob noFaults (newState pDemo dbLegacy)).2 rfl rfl⟩

/-- C5: dependency draining — for distinct ids D and X, after one or more
`AddDependency(D, X)` calls (re-adding is idempotent) a successful
`RemoveDependencies(D)` returns a collection containing X exactly once,
and an immediately following second `RemoveDependencies(D)` succeeds and
returns the empty collection.  The hypothesis that X occurs at most once
in D's bucket holds for every bucket this program builds, since buckets
are only ever extended by the idempotent `bucketPut`. -/
theorem c5_dependency_draining :
    ∀ (s : State) (D X n : Nat), D ≠ X →
      List.count X (getDependentsBucket s D) ≤ 1 →
      (∃ l, (removeDependencies noFaults
          (addDependencyTimes noFaults s D X (n + 1)) D).1 = .ok l ∧
        List.count X l = 1) ∧
      (removeDependencies noFaults
        (removeDependencies noFaults
          (addDependencyTimes noFaults s D X (n + 1)) D).2 D).1 = .ok [] := by
  intro s D X n _ hcount
  constructor
  · refine ⟨getDependentsBucket (addDependencyTimes noFaults s D X (n + 1)) D, ?_, ?_⟩
    · exact removeDependencies_noFaults_fst _ _
    · exact addDependencyTimes_count D X n s hcount
  · rw [removeDependencies_noFaults_fst, removeDependencies_noFaults_bucket]

/-- Witness for C5: dependency 5 and dependent 7 added twice over the
empty queue, then drained twice. -/
theorem c5_dependency_draining_witness :
    (∃ l, (removeDependencies noFaults
        (addDependencyTimes noFaults (emptyState pDemo) 5 7 2) 5).1 = .ok l ∧
      List.count 7 l = 1) ∧
    (removeDependencies noFaults
      (removeDependencies noFaults
        (addDependencyTimes noFaults (emptyState pDemo) 5 7 2) 5).2 5).1 = .ok [] :=
  c5_dependency_draining (emptyState pDemo) 5 7 1 (by decide) (by decide)

/-- C6: if deleting an entry fails mid-iteration during
`RemoveDependencies(D)`, the operation returns the error and no result
collection, while the entries deleted before the failure are gone from
the persisted bucket (and are not returned), and the failing entry with
the ones after it remain. -/
theorem c6_remove_dependencies_partial_failure :
    ∀ (f : Faults) (s : State) (D k : Nat) (xs ys : List Nat),
      getDependentsBucket s D = xs ++ k :: ys →
      (xs ++ k :: ys).Nodup →
      (∀ x ∈ xs, f.fails (.depDelete D x) = false) →
      f.fails (.depDelete D k) = true →
      (removeDependencies f s D).1 = .error .ioError ∧
      getDependentsBucket (removeDependencies f s D).2 D = k :: ys := by
  intro f s D k xs ys hb hnd hxs hk
  have hb1 : getDependentsBucket (touchDependentsCache s D) D = xs ++ k :: ys := by
    rw [getDependentsBucket_touch, hb]
  have := removeDepsLoop_fault f D k ys hk xs (touchDependentsCache s D) [] hb1 hnd hxs
  simpa [removeDependencies, hb1] using this

/-- Witness for C6: dependents 7, 8, 9 of dependency 5, with the delete
of entry 8 failing: the drain errors out, 7 is gone from the bucket, and
8 and 9 remain. -/
theorem c6_remove_dependencies_partial_failure_witness :
    (removeDependencies faultDepDelete58 c6State 5).1 = .error .ioError ∧
    getDependentsBucket (removeDependencies faultDepDelete58 c6State 5).2 5 = 8 :: [9] :=
  c6_remove_dependencies_partial_failure faultDepDelete58 c6State 5 8 [7] [9]
    (by decide) (by decide) (by decide) (by decide)

/-- C9: missing-set algebra — from an empty Missing Set, adding {A, B} and
then removing {A} leaves exactly {B}; adding an already-present id and
removing an absent id are both successful no-ops. -/
theorem c9_missing_set_algebra :
    (∀ s A B, A ≠ B → s.missingJobIDs = [] →
      missingJobIDs (removeMissingJobIDs noFaults
        (addMissingJobIDs noFaults s [A, B]).2 [A]).2 = [B]) ∧
    (∀ s id, id ∈ s.missingJobIDs →
      addMissingJobIDs noFaults s [id] = (none, s)) ∧
    (∀ s id, id ∉ s.missingJobIDs →
      removeMissingJobIDs noFaults s [id] = (none, s)) := by
  refine ⟨?_, ?_, ?_⟩
  · intro s A B hAB hempty
    have hBA : B ≠ A := Ne.symm hAB
    simp [addMissingJobIDs, removeMissingJobIDs, missingJobIDs, noFaults,
      bucketPut, bucketDelete, hempty, hAB, hBA]
  · intro s id h
    simp [addMissingJobIDs, noFaults, bucketPut_mem _ _ h]
  · intro s id h
    simp [removeMissingJobIDs, noFaults, bucketDelete_not_mem _ _ h]

/-- Witness for C9: the algebra evaluated on the empty queue with ids 3
and 4, a re-add of the already-present id 3, and a removal of the absent
id 5. -/
theorem c9_missing_set_algebra_witness :
    missingJobIDs (removeMissingJobIDs noFaults
      (addMissingJobIDs noFaults (emptyState pDemo) [3, 4]).2 [3]).2 = [4] ∧
    addMissingJobIDs noFaults missingHolds3 [3] = (none, missingHolds3) ∧
    removeMissingJobIDs noFaults (emptyState pDemo) [5] = (none, emptyState pDemo) :=
  ⟨c9_missing_set_algebra.1 (emptyState pDemo) 3 4 (by decide) rfl,
   c9_missing_set_algebra.2.1 missingHolds3 3 (by decide),
   c9_missing_set_algebra.2.2 (emptyState pDemo) 5 (by decide)⟩

/-- C7: `GetJob` is cache-first when caching is enabled: a cache hit is
returned with the store untouched and the state unchanged; on a cache
miss with the id absent from the jobs namespace it fails with NotFound;
on a miss with resident bytes that decode successfully it returns the
decoded job and inserts it into the content cache; on a decode failure
it returns the decode error and caches nothing. -/
theorem c7_getJob_cache_first :
    (∀ s id j, s.cachingEnabled = true → cacheGet s.jobsCache id = some j →
      getJob s id = (.ok j, s)) ∧
    (∀ s id, s.cachingEnabled = true → cacheGet s.jobsCache id = none →
      kvGet s.jobs id = none → getJob s id = (.error .notFound, s)) ∧
    (∀ s id bs job, s.cachingEnabled = true → cacheGet s.jobsCache id = none →
      kvGet s.jobs id = some bs → s.parser bs = .ok job →
      getJob s id =
        (.ok job, { s with jobsCache := cachePut s.jobsCache jobsCacheSize id job })) ∧
    (∀ s id bs e, s.cachingEnabled = true → cacheGet s.jobsCache id = none →
      kvGet s.jobs id = some bs → s.parser bs = .error e →
      getJob s id = (.error e, s)) := by
  refine ⟨?_, ?_, ?_, ?_⟩
  · intro s id j hc hhit
    simp [getJob, hc, hhit]
  · intro s id hc hmiss habsent
    simp [getJob, getJobFromStore, hc, hmiss, habsent]
  · intro s id bs job hc hmiss hbs hparse
    simp [getJob, getJobFromStore, hc, hmiss, hbs, hparse]
  · intro s id bs e hc hmiss hbs hparse
    simp [getJob, getJobFromStore, hc, hmiss, hbs, hparse]

/-- Witness for C7: each of the four branches evaluated on a concrete
queue — a cache hit after `PutJob`, a NotFound on the empty queue, a
store read with successful decode on a freshly opened database, and a
decode failure on corrupt bytes. -/
theorem c7_getJob_cache_first_witness :
    getJob afterPutA 1 = (.ok jobA, afterPutA) ∧
    getJob (emptyState pDemo) 2 = (.error .notFound, emptyState pDemo) ∧
    getJob (newState pDemo dbLegacy) 1 =
      (.ok jobA, { newState pDemo dbLegacy with
        jobsCache := cachePut (newState pDemo dbLegacy).jobsCache jobsCacheSize 1 jobA }) ∧
    getJob (newState pDemo dbBadBytes) 3 = (.error .parseError, newState pDemo dbBadBytes) :=
  ⟨c7_getJob_cache_first.1 afterPutA 1 jobA rfl rfl,
   c7_getJob_cache_first.2.1 (emptyState pDemo) 2 rfl rfl rfl,
   c7_getJob_cache_first.2.2.1 (newState pDemo dbLegacy) 1 [10] jobA rfl rfl rfl rfl,
   c7_getJob_cache_first.2.2.2 (newState pDemo dbBadBytes) 3 [99] .parseError rfl rfl rfl rfl⟩

/-- C10: with caching enabled, `PutJob` inserts into the content cache
before the durable write; when the jobs-namespace write fails, `PutJob`
returns the error, the pending counter, jobs namespace and checkpoint
are unchanged, yet `HasJob` already reports the job present and `GetJob`
returns it from the cache although nothing was persisted. -/
theorem c10_putJob_not_atomic_on_error :
    ∀ f s j, s.cachingEnabled = true → f.fails (.jobsPut j.jid) = true →
      (putJob f s j).1 = some .ioError ∧
      (putJob f s j).2.numPendingJobs = s.numPendingJobs ∧
      (putJob f s j).2.jobs = s.jobs ∧
      (putJob f s j).2.pendingJobs = s.pendingJobs ∧
      hasJob (putJob f s j).2 j.jid = true ∧
      (getJob (putJob f s j).2 j.jid).1 = .ok j := by
  intro f s j hc hf
  have hcache := cacheGet_cachePut_self s.jobsCache jobsCacheSize j.jid j jobsCacheSize_ne_zero
  simp [putJob, hc, hf, hasJob, getJob, hcache]

/-- Witness for C10: a `PutJob` of `jobA` over the empty queue whose
jobs-namespace write fails leaves the job visible through the cache. -/
theorem c10_putJob_not_atomic_on_error_witness :
    (putJob faultJobsPut1 (emptyState pDemo) jobA).1 = some .ioError ∧
    (putJob faultJobsPut1 (emptyState pDemo) jobA).2.numPendingJobs =
      (emptyState pDemo).numPendingJobs ∧
    (putJob faultJobsPut1 (emptyState pDemo) jobA).2.jobs = (emptyState pDemo).jobs ∧
    (putJob faultJobsPut1 (emptyState pDemo) jobA).2.pendingJobs =
      (emptyState pDemo).pendingJobs ∧
    hasJob (putJob faultJobsPut1 (emptyState pDemo) jobA).2 jobA.jid = true ∧
    (getJob (putJob faultJobsPut1 (emptyState pDemo) jobA).2 jobA.jid).1 = .ok jobA :=
  c10_putJob_not_atomic_on_error faultJobsPut1 (emptyState pDemo) jobA rfl rfl

end BootstrapQueue
